import Mathlib

/-!
A verification development for the cross-reference analysis core of a
de-linking tool for a dual-processor handheld ROM format.

The analysis code (`src/analysis/data.rs`) and the `init` command
(`src/cmd/init.rs`) are embedded shallowly below.  Supporting types that the
analysis consumes (section maps, symbol maps, relocation containers, the
disassembler's per-function listings) are not part of the analyzed sources;
they are modelled from the specification, as marked in their doc comments.
Machine integers (`u32` addresses and values) are modelled as `Nat`; the two
bit operations the code uses, `x & !1` and `(x & 1) != 0`, are modelled as
`clearLowBit` and `lowBitSet`.
-/

namespace DsDecomp

/-- Modelled from the spec: autoload regions are ITCM or DTCM. -/
inductive AutoloadKind
  | itcm
  | dtcm
deriving DecidableEq

/-- Modelled from the spec: a module is the main binary, an overlay with an
id, or an autoload. -/
inductive ModuleKind
  | main
  | overlay (id : Nat)
  | autoload (kind : AutoloadKind)
deriving DecidableEq

/-- Modelled from the spec: section kinds. -/
inductive SectionKind
  | code
  | data
  | bss
deriving DecidableEq

/-- Clear the low bit of an address: the model of `x & !1` on `u32`. -/
def clearLowBit (x : Nat) : Nat := 2 * (x / 2)

/-- Whether the low bit of an address is set: the model of `(x & 1) != 0`. -/
def lowBitSet (x : Nat) : Bool := x % 2 == 1

/-- Modelled from the spec: one function-call site produced by the
disassembler: target address, target Thumb flag, and whether the call
instruction is conditional (`ins.is_conditional()`). -/
structure CalledFunction where
  address : Nat
  thumb : Bool
  conditional : Bool
deriving DecidableEq

/-- Modelled from the spec: one pool constant produced by the disassembler:
the address of the literal word and its value. -/
structure PoolConstant where
  address : Nat
  value : Nat
deriving DecidableEq

/-- Modelled from the spec: a function discovered by disassembly, with its
start address, Thumb flag, call sites (keyed by site address, in address
order) and pool constants. -/
structure Function where
  start : Nat
  thumb : Bool
  functionCalls : List (Nat × CalledFunction)
  poolConstants : List PoolConstant
deriving DecidableEq

/-- `function.is_thumb()`. -/
def Function.is_thumb (f : Function) : Bool := f.thumb

/-- Modelled from the spec: `iter_pool_constants(code, base)` yields the
disassembler's pool-constant listing; decoding bytes is external, so the
listing is carried in the `Function` record. -/
def Function.iterPoolConstants (f : Function) (_code : List Nat) (_base : Nat) :
    List PoolConstant :=
  f.poolConstants

/-- Modelled from the spec: a section has a kind, a half-open address range
`[start, endAddr)`, and (if Code) an ordered function listing. -/
structure Section where
  kind : SectionKind
  start : Nat
  endAddr : Nat
  functions : List Function
deriving DecidableEq

/-- Whether a section's half-open range contains an address. -/
def Section.containsAddr (s : Section) (a : Nat) : Bool :=
  decide (s.start ≤ a ∧ a < s.endAddr)

/-- A 32-bit aligned word of a section: its address and value. -/
structure Word where
  address : Nat
  value : Nat
deriving DecidableEq

/-- Read a 32-bit little-endian word at a byte offset, out-of-range bytes
reading as zero. -/
def readWordLE (bytes : List Nat) (off : Nat) : Nat :=
  bytes.getD off 0 + 256 * bytes.getD (off + 1) 0 +
    65536 * bytes.getD (off + 2) 0 + 16777216 * bytes.getD (off + 3) 0

/-- Modelled from the spec: `iter_words` yields one entry per 4-byte aligned
word of the section, addresses ascending by 4, values read little-endian from
the backing bytes; empty for Bss sections. -/
def Section.iterWords (s : Section) (code : List Nat) : List Word :=
  if s.kind = SectionKind.bss then []
  else (List.range ((s.endAddr - s.start) / 4)).map
    (fun i => { address := s.start + 4 * i, value := readWordLE code (4 * i) })

/-- Modelled from the spec: `section.code(module_code, base_address)` returns
`None` for Bss sections (no backing bytes), the backing byte slice for
Code/Data sections whose range lies in the module's buffer, and the fatal
`MissingSectionBytes` error otherwise. -/
inductive AnalysisError
  | danglingCall
  | symbolConflict
  | ambiguousRelocation
  | missingSectionBytes
  | unwrapPanic
deriving DecidableEq

def Section.codeBytes (s : Section) (moduleCode : List Nat) (base : Nat) :
    Except AnalysisError (Option (List Nat)) :=
  match s.kind with
  | SectionKind.bss => .ok none
  | _ =>
    if base ≤ s.start ∧ s.start ≤ s.endAddr ∧ s.endAddr - base ≤ moduleCode.length then
      .ok (some ((moduleCode.drop (s.start - base)).take (s.endAddr - s.start)))
    else .error .missingSectionBytes

/-- The premise of `Section.codeBytes` returning backing bytes: the section's
range lies inside the module's code buffer. -/
abbrev Section.inBuffer (s : Section) (moduleCode : List Nat) (base : Nat) : Prop :=
  base ≤ s.start ∧ s.start ≤ s.endAddr ∧ s.endAddr - base ≤ moduleCode.length

/-- Modelled from the spec: a module with kind, base address, code buffer and
section map (a list of sections in address order). -/
structure Module where
  kind : ModuleKind
  baseAddress : Nat
  code : List Nat
  sections : List Section
deriving DecidableEq

instance : Inhabited Module := ⟨⟨ModuleKind.main, 0, [], []⟩⟩

/-- `module.sections()` accessor, for readability. -/
def Module.sectionsOf (m : Module) : List Section := m.sections

/-- Modelled from the spec: `get_by_contained_address(addr)` returns the
(index, section) of the section whose half-open range contains the address. -/
def getByContainedAddressAux (addr : Nat) : List Section → Nat → Option (Nat × Section)
  | [], _ => none
  | s :: rest, i =>
    if s.containsAddr addr then some (i, s)
    else getByContainedAddressAux addr rest (i + 1)

def getByContainedAddress (sections : List Section) (addr : Nat) : Option (Nat × Section) :=
  getByContainedAddressAux addr sections 0

/-- Modelled from the spec: symbol records. -/
inductive SymKind
  | function (thumb : Bool) (size : Nat)
  | externalLabel (thumb : Bool)
  | data
  | bss
deriving DecidableEq

def SymKind.isFunction : SymKind → Bool
  | .function _ _ => true
  | _ => false

structure Symbol where
  addr : Nat
  name : String
  kind : SymKind
deriving DecidableEq

/-- Modelled from the spec: a module's symbol map, keyed by address. -/
abbrev SymbolMap := List Symbol

/-- `get_function(addr)`: exact-address lookup of a function symbol; callers
pass the address with the low bit already cleared. -/
def SymbolMap.getFunction (sm : SymbolMap) (addr : Nat) : Option Symbol :=
  sm.find? (fun s => s.addr == addr && s.kind.isFunction)

/-- `get_function_containing(addr)`: the function symbol whose
`[start, start+size)` contains the address. -/
def SymbolMap.getFunctionContaining (sm : SymbolMap) (addr : Nat) : Option Symbol :=
  sm.find? (fun s =>
    match s.kind with
    | SymKind.function _ size => decide (s.addr ≤ addr ∧ addr < s.addr + size)
    | _ => false)

/-- Modelled from the spec: `add_external_label(addr, thumb)` records a
branch target inside another function's body; adding at a function-start
address is a no-op. -/
def SymbolMap.addExternalLabel (sm : SymbolMap) (addr : Nat) (thumb : Bool) : SymbolMap :=
  if (sm.getFunction addr).isSome then sm
  else sm ++ [{ addr := addr, name := "", kind := SymKind.externalLabel thumb }]

/-- Modelled from the spec: `add_data` is idempotent at an address that
already has a data symbol and fails with `SymbolConflict` when an existing
symbol disagrees in kind. -/
def SymbolMap.addData (sm : SymbolMap) (name : String) (addr : Nat) :
    Except AnalysisError SymbolMap :=
  match sm.find? (fun s => s.addr == addr) with
  | some s =>
    match s.kind with
    | SymKind.data => .ok sm
    | _ => .error .symbolConflict
  | none => .ok (sm ++ [{ addr := addr, name := name, kind := SymKind.data }])

/-- Modelled from the spec: `add_bss`, with the same idempotence rule. -/
def SymbolMap.addBss (sm : SymbolMap) (name : String) (addr : Nat) :
    Except AnalysisError SymbolMap :=
  match sm.find? (fun s => s.addr == addr) with
  | some s =>
    match s.kind with
    | SymKind.bss => .ok sm
    | _ => .error .symbolConflict
  | none => .ok (sm ++ [{ addr := addr, name := name, kind := SymKind.bss }])

/-- Modelled from the spec: the collection of per-module symbol maps, keyed
by module kind. -/
abbrev SymbolMaps := ModuleKind → SymbolMap

def SymbolMaps.get (sms : SymbolMaps) (k : ModuleKind) : SymbolMap := sms k

def SymbolMaps.update (sms : SymbolMaps) (k : ModuleKind) (m : SymbolMap) : SymbolMaps :=
  fun k' => if k' = k then m else sms k'

/-- Modelled from the spec: destination-module encoding of a relocation. -/
inductive RelocationModule
  | none
  | main
  | itcm
  | dtcm
  | overlay (id : Nat)
  | overlays (ids : List Nat)
deriving DecidableEq

/-- Modelled from the spec: conversion from `ModuleKind` to
`RelocationModule` (it can fail only for unknown autoload kinds, which this
model's `AutoloadKind` does not contain, so it is total here).  The spec's
`Current` destination denotes the result of applying this conversion to the
focus module's own kind. -/
def ModuleKind.toRelocationModule : ModuleKind → RelocationModule
  | ModuleKind.main => RelocationModule.main
  | ModuleKind.autoload AutoloadKind.itcm => RelocationModule.itcm
  | ModuleKind.autoload AutoloadKind.dtcm => RelocationModule.dtcm
  | ModuleKind.overlay id => RelocationModule.overlay id

def ModuleKind.isOverlay : ModuleKind → Bool
  | ModuleKind.overlay _ => true
  | _ => false

def ModuleKind.overlayId : ModuleKind → Option Nat
  | ModuleKind.overlay id => some id
  | _ => none

/-- Modelled from the spec (destination-module reduction): an empty candidate
iterator reduces to `None`; a single candidate to that module's kind;
multiple candidates to `Any(overlay_ids)` when all are overlays, and to the
fatal `AmbiguousRelocation` error otherwise. -/
def RelocationModule.fromModules : List Module → Except AnalysisError RelocationModule
  | [] => .ok RelocationModule.none
  | [m] => .ok m.kind.toRelocationModule
  | m₁ :: m₂ :: rest =>
    if (m₁ :: m₂ :: rest).all (fun m => m.kind.isOverlay) then
      .ok (RelocationModule.overlays ((m₁ :: m₂ :: rest).filterMap (fun m => m.kind.overlayId)))
    else .error .ambiguousRelocation

/-- Modelled from the spec: a typed relocation record.  `new_call` carries
the caller and target Thumb flags; `new_load` carries an addend. -/
inductive RelocationKind
  | call (fromThumb toThumb : Bool)
  | load
deriving DecidableEq

structure Relocation where
  fromAddress : Nat
  toAddress : Nat
  addend : Nat
  kind : RelocationKind
  module : RelocationModule
deriving DecidableEq

def Relocation.newCall (fromAddress toAddress : Nat) (module : RelocationModule)
    (fromThumb toThumb : Bool) : Relocation :=
  { fromAddress := fromAddress, toAddress := toAddress, addend := 0,
    kind := RelocationKind.call fromThumb toThumb, module := module }

def Relocation.newLoad (fromAddress toAddress addend : Nat) (module : RelocationModule) :
    Relocation :=
  { fromAddress := fromAddress, toAddress := toAddress, addend := addend,
    kind := RelocationKind.load, module := module }

/-- Modelled from the spec: the mutable relocation list of the Local Scanner;
`add_load` appends a `Load` relocation. -/
abbrev Relocations := List Relocation

def Relocations.addLoad (rels : Relocations) (fromAddress toAddress addend : Nat)
    (module : RelocationModule) : Relocations :=
  rels ++ [Relocation.newLoad fromAddress toAddress addend module]

/-- Hexadecimal digit for the `{:08x}` name format. -/
def hexDigit (n : Nat) : Char :=
  if n < 10 then Char.ofNat (48 + n) else Char.ofNat (87 + n)

/-- The `format!("{:08x}", pointer)` eight-digit lower-case hex rendering. -/
def hex8 (n : Nat) : String :=
  String.mk ((List.range 8).map (fun i => hexDigit (n / 16 ^ (7 - i) % 16)))

/-- Embeds `add_symbol_from_pointer` from `src/analysis/data.rs`: branch on
the destination section's kind; for Code sections the function lookup uses
the pointer as-is (no low-bit clearing in the source). -/
def add_symbol_from_pointer (sec : Section) (address pointer : Nat)
    (moduleKind : ModuleKind) (symbolMap : SymbolMap) (relocations : Relocations)
    (namePre : String) : Except AnalysisError (SymbolMap × Relocations) :=
  let name := namePre ++ hex8 pointer
  match sec.kind with
  | SectionKind.code =>
    if (symbolMap.getFunction pointer).isSome then
      .ok (symbolMap,
        relocations.addLoad address pointer 0 moduleKind.toRelocationModule)
    else .ok (symbolMap, relocations)
  | SectionKind.data =>
    match symbolMap.addData name pointer with
    | .error e => .error e
    | .ok sm =>
      .ok (sm, relocations.addLoad address pointer 0 moduleKind.toRelocationModule)
  | SectionKind.bss =>
    match symbolMap.addBss name pointer with
    | .error e => .error e
    | .ok sm =>
      .ok (sm, relocations.addLoad address pointer 0 moduleKind.toRelocationModule)

/-- One step of the pool loop of `find_local_data_from_pools`: the
function-pointer check masks the low bit (`pointer & !1`). -/
def localPoolStep (sections : List Section) (moduleKind : ModuleKind)
    (namePre : String) (st : SymbolMap × Relocations) (pc : PoolConstant) :
    Except AnalysisError (SymbolMap × Relocations) :=
  match getByContainedAddress sections pc.value with
  | none => .ok st
  | some (_, sec) =>
    if sec.kind = SectionKind.code ∧ (st.1.getFunction (clearLowBit pc.value)).isSome then
      .ok (st.1, st.2.addLoad pc.address pc.value 0 moduleKind.toRelocationModule)
    else
      add_symbol_from_pointer sec pc.address pc.value moduleKind st.1 st.2 namePre

def localPoolFold (sections : List Section) (moduleKind : ModuleKind) (namePre : String) :
    List PoolConstant → SymbolMap × Relocations →
      Except AnalysisError (SymbolMap × Relocations)
  | [], st => .ok st
  | pc :: rest, st =>
    match localPoolStep sections moduleKind namePre st pc with
    | .error e => .error e
    | .ok st' => localPoolFold sections moduleKind namePre rest st'

/-- Embeds `find_local_data_from_pools` from `src/analysis/data.rs`. -/
def find_local_data_from_pools (function : Function) (sections : List Section)
    (moduleKind : ModuleKind) (symbolMap : SymbolMap) (relocations : Relocations)
    (namePre : String) (moduleCode : List Nat) (baseAddress : Nat) :
    Except AnalysisError (SymbolMap × Relocations) :=
  localPoolFold sections moduleKind namePre
    (function.iterPoolConstants moduleCode baseAddress) (symbolMap, relocations)

/-- The candidate filter of `add_function_calls_as_relocations`
(`src/analysis/data.rs` lines 188-195): the section containing the target is
looked up, then its function listing is probed at the target address as-is
(no low-bit clearing, no section-kind test in the source). -/
def callSiteFilter (target : Nat) (thumb : Bool) (m : Module) : Bool :=
  match getByContainedAddress m.sections target with
  | some (_, s) =>
    match s.functions.find? (fun fn => fn.start == target) with
    | some fn => fn.is_thumb == thumb
    | none => false
  | none => false

/-- Embeds `find_symbol_candidates` from `src/analysis/data.rs`: per-module
candidate test, with the successful section index.  For Code sections the
function lookup masks the low bit and the Thumb flag must match the
pointer's low bit. -/
def candidateSection (m : Module) (pointer : Nat) : Option Nat :=
  match getByContainedAddress m.sections pointer with
  | none => none
  | some (sectionIndex, s) =>
    if s.kind = SectionKind.code then
      match s.functions.find? (fun fn => fn.start == clearLowBit pointer) with
      | none => none
      | some fn => if fn.is_thumb == lowBitSet pointer then some sectionIndex else none
    else some sectionIndex

structure SymbolCandidate where
  moduleIndex : Nat
  sectionIndex : Nat
deriving DecidableEq

def symbolCandidatesAux (moduleIndex pointer : Nat) :
    List Module → Nat → List SymbolCandidate
  | [], _ => []
  | m :: rest, i =>
    let tail := symbolCandidatesAux moduleIndex pointer rest (i + 1)
    if i = moduleIndex then tail
    else
      match candidateSection m pointer with
      | some si => { moduleIndex := i, sectionIndex := si } :: tail
      | none => tail

def find_symbol_candidates (modules : List Module) (moduleIndex pointer : Nat) :
    List SymbolCandidate :=
  symbolCandidatesAux moduleIndex pointer modules 0

/-- The output record of `analyze_external_references`: append-only lists of
relocations and cross-module external symbols. -/
structure ExternalSymbol where
  candidates : List SymbolCandidate
  address : Nat
deriving DecidableEq

structure RelocationResult where
  relocations : List Relocation
  externalSymbols : List ExternalSymbol
deriving DecidableEq

def RelocationResult.new : RelocationResult := { relocations := [], externalSymbols := [] }

/-- Embeds `find_external_data` from `src/analysis/data.rs`: return unchanged
when the pointer is local to the focus module or has no candidates; otherwise
reduce the candidate modules and append a `Load` relocation plus an external
symbol. -/
def find_external_data (modules : List Module) (moduleIndex : Nat)
    (address pointer : Nat) (result : RelocationResult) :
    Except AnalysisError RelocationResult :=
  if (getByContainedAddress (modules.getD moduleIndex default).sections pointer).isSome then
    .ok result
  else if (find_symbol_candidates modules moduleIndex pointer).isEmpty then .ok result
  else
    match RelocationModule.fromModules
        ((find_symbol_candidates modules moduleIndex pointer).map
          (fun c => modules.getD c.moduleIndex default)) with
    | .error e => .error e
    | .ok module =>
      .ok { relocations := result.relocations ++ [Relocation.newLoad address pointer 0 module],
            externalSymbols := result.externalSymbols ++
              [{ candidates := find_symbol_candidates modules moduleIndex pointer,
                 address := pointer }] }

/-- The destination-module computation of one call site of
`add_function_calls_as_relocations` (`src/analysis/data.rs` lines 165-197):
for a local target look up the containing function (failing with the fatal
dangling-call error), add an external label on a mid-function hit, and use
the focus module's own kind; for a non-local target filter all modules
through `callSiteFilter` and reduce. -/
def callDestination (modules : List Module) (moduleIndex : Nat)
    (symbolMaps : SymbolMaps) (calledFunction : CalledFunction) :
    Except AnalysisError (SymbolMaps × RelocationModule) :=
  if (getByContainedAddress (modules.getD moduleIndex default).sections
      calledFunction.address).isSome then
    match (symbolMaps.get (modules.getD moduleIndex default).kind).getFunctionContaining
        calledFunction.address with
    | none => .error .danglingCall
    | some symbol =>
      .ok ((if calledFunction.address ≠ symbol.addr then
              symbolMaps.update (modules.getD moduleIndex default).kind
                ((symbolMaps.get (modules.getD moduleIndex default).kind).addExternalLabel
                  calledFunction.address calledFunction.thumb)
            else symbolMaps),
           (modules.getD moduleIndex default).kind.toRelocationModule)
  else
    match RelocationModule.fromModules
        (modules.filter (callSiteFilter calledFunction.address calledFunction.thumb)) with
    | .error e => .error e
    | .ok m => .ok (symbolMaps, m)

/-- One call site of `add_function_calls_as_relocations`
(`src/analysis/data.rs` lines 159-214): skip conditional calls, compute the
destination, then append the `Call` relocation. -/
def processCallSite (modules : List Module) (moduleIndex : Nat) (function : Function)
    (st : SymbolMaps × RelocationResult) (call : Nat × CalledFunction) :
    Except AnalysisError (SymbolMaps × RelocationResult) :=
  if call.2.conditional then .ok st
  else
    match callDestination modules moduleIndex st.1 call.2 with
    | .error e => .error e
    | .ok (symbolMaps', m) =>
      .ok (symbolMaps',
        { st.2 with relocations := st.2.relocations ++
            [Relocation.newCall call.1 call.2.address m
              function.is_thumb call.2.thumb] })

/-- The call-site loop of `add_function_calls_as_relocations`. -/
def callSiteFold (modules : List Module) (moduleIndex : Nat) (function : Function) :
    List (Nat × CalledFunction) → SymbolMaps × RelocationResult →
      Except AnalysisError (SymbolMaps × RelocationResult)
  | [], st => .ok st
  | c :: rest, st =>
    match processCallSite modules moduleIndex function st c with
    | .error e => .error e
    | .ok st' => callSiteFold modules moduleIndex function rest st'

/-- Embeds `add_function_calls_as_relocations` from `src/analysis/data.rs`. -/
def add_function_calls_as_relocations (modules : List Module) (moduleIndex : Nat)
    (function : Function) (st : SymbolMaps × RelocationResult) :
    Except AnalysisError (SymbolMaps × RelocationResult) :=
  callSiteFold modules moduleIndex function function.functionCalls st

/-- The pool-constant loop of `find_external_data_from_pools`. -/
def poolFold (modules : List Module) (moduleIndex : Nat) :
    List PoolConstant → RelocationResult → Except AnalysisError RelocationResult
  | [], result => .ok result
  | pc :: rest, result =>
    match find_external_data modules moduleIndex pc.address pc.value result with
    | .error e => .error e
    | .ok result' => poolFold modules moduleIndex rest result'

/-- Embeds `find_external_data_from_pools` from `src/analysis/data.rs`. -/
def find_external_data_from_pools (modules : List Module) (moduleIndex : Nat)
    (function : Function) (result : RelocationResult) :
    Except AnalysisError RelocationResult :=
  let module := modules.getD moduleIndex default
  poolFold modules moduleIndex
    (function.iterPoolConstants module.code module.baseAddress) result

/-- The per-function body of `find_relocations_in_functions`: call pass, then
pool pass, for one function. -/
def processFunction (modules : List Module) (moduleIndex : Nat)
    (st : SymbolMaps × RelocationResult) (function : Function) :
    Except AnalysisError (SymbolMaps × RelocationResult) :=
  match add_function_calls_as_relocations modules moduleIndex function st with
  | .error e => .error e
  | .ok (sm, result) =>
    match find_external_data_from_pools modules moduleIndex function result with
    | .error e => .error e
    | .ok result' => .ok (sm, result')

def functionFold (modules : List Module) (moduleIndex : Nat) :
    List Function → SymbolMaps × RelocationResult →
      Except AnalysisError (SymbolMaps × RelocationResult)
  | [], st => .ok st
  | f :: rest, st =>
    match processFunction modules moduleIndex st f with
    | .error e => .error e
    | .ok st' => functionFold modules moduleIndex rest st'

/-- The functions of the focus module, iterated section by section — the
sequence visited by the nested loops of `find_relocations_in_functions`. -/
def focusFunctions (modules : List Module) (moduleIndex : Nat) : List Function :=
  ((modules.getD moduleIndex default).sections).flatMap (fun s => s.functions)

/-- Embeds `find_relocations_in_functions` from `src/analysis/data.rs`: for
each section, for each function, the call pass then the pool pass. -/
def find_relocations_in_functions (modules : List Module) (moduleIndex : Nat)
    (symbolMaps : SymbolMaps) (result : RelocationResult) :
    Except AnalysisError (SymbolMaps × RelocationResult) :=
  functionFold modules moduleIndex (focusFunctions modules moduleIndex)
    (symbolMaps, result)

/-- The word loop inside `find_external_references_in_sections`. -/
def wordFold (modules : List Module) (moduleIndex : Nat) :
    List Word → RelocationResult → Except AnalysisError RelocationResult
  | [], result => .ok result
  | w :: rest, result =>
    match find_external_data modules moduleIndex w.address w.value result with
    | .error e => .error e
    | .ok result' => wordFold modules moduleIndex rest result'

/-- The section loop of `find_external_references_in_sections`: Code and Bss
sections are skipped before any byte access; for Data sections the backing
bytes are requested and unwrapped (`.unwrap()` is modelled as the
`unwrapPanic` error), then every word is fed to `find_external_data`. -/
def sectionDataFold (modules : List Module) (moduleIndex : Nat) :
    List Section → RelocationResult → Except AnalysisError RelocationResult
  | [], result => .ok result
  | s :: rest, result =>
    match s.kind with
    | SectionKind.code => sectionDataFold modules moduleIndex rest result
    | SectionKind.bss => sectionDataFold modules moduleIndex rest result
    | SectionKind.data =>
      match s.codeBytes (modules.getD moduleIndex default).code
          (modules.getD moduleIndex default).baseAddress with
      | .error e => .error e
      | .ok none => .error .unwrapPanic
      | .ok (some code) =>
        match wordFold modules moduleIndex (s.iterWords code) result with
        | .error e => .error e
        | .ok result' => sectionDataFold modules moduleIndex rest result'

/-- Embeds `find_external_references_in_sections` from
`src/analysis/data.rs`. -/
def find_external_references_in_sections (modules : List Module) (moduleIndex : Nat)
    (result : RelocationResult) : Except AnalysisError RelocationResult :=
  sectionDataFold modules moduleIndex (modules.getD moduleIndex default).sections result

/-- Embeds `analyze_external_references` from `src/analysis/data.rs`: the
function pass (calls and pools) followed by the data-section pass.  The
mutated symbol-map collection is returned alongside the result. -/
def analyze_external_references (modules : List Module) (moduleIndex : Nat)
    (symbolMaps : SymbolMaps) : Except AnalysisError (SymbolMaps × RelocationResult) :=
  match find_relocations_in_functions modules moduleIndex symbolMaps
      RelocationResult.new with
  | .error e => .error e
  | .ok (symbolMaps', result) =>
    match find_external_references_in_sections modules moduleIndex result with
    | .error e => .error e
    | .ok result' => .ok (symbolMaps', result')

/-!
Filesystem-effect model of the `init` command (`src/cmd/init.rs`).  File
input/output is external; the embedding records the sequence of directory
creations and file writes that `Init::run` performs after a successful
analysis, as a trace of effects.  Paths are lists of path segments.
-/

inductive FsEffect
  | createDir (path : List String)
  | writeFile (path : List String)
deriving DecidableEq

def autoloadName : AutoloadKind → String
  | AutoloadKind.itcm => "itcm"
  | AutoloadKind.dtcm => "dtcm"

/-- Effects of `Init::overlay_configs`: the per-overlay directory is created
unconditionally (`create_dir_all` outside the dry guard); the three files are
written only when not dry. -/
def overlayConfigEffects (dry : Bool) (overlaysPath : List String)
    (overlayNames : List String) : List FsEffect :=
  overlayNames.flatMap (fun name =>
    let dir := overlaysPath ++ [name]
    FsEffect.createDir dir ::
      (if dry then []
       else [FsEffect.writeFile (dir ++ ["delinks.txt"]),
             FsEffect.writeFile (dir ++ ["symbols.txt"]),
             FsEffect.writeFile (dir ++ ["relocs.txt"])]))

/-- Effects of `Init::autoload_configs`: same shape, directories named after
the autoload kind. -/
def autoloadConfigEffects (dry : Bool) (arm9Path : List String)
    (autoloads : List AutoloadKind) : List FsEffect :=
  autoloads.flatMap (fun kind =>
    let dir := arm9Path ++ [autoloadName kind]
    FsEffect.createDir dir ::
      (if dry then []
       else [FsEffect.writeFile (dir ++ ["delinks.txt"]),
             FsEffect.writeFile (dir ++ ["symbols.txt"]),
             FsEffect.writeFile (dir ++ ["relocs.txt"])]))

/-- Effects of `Init::arm9_config`: three file writes, all inside the dry
guard. -/
def arm9ConfigEffects (dry : Bool) (arm9Path : List String) : List FsEffect :=
  if dry then []
  else [FsEffect.writeFile (arm9Path ++ ["delinks.txt"]),
        FsEffect.writeFile (arm9Path ++ ["symbols.txt"]),
        FsEffect.writeFile (arm9Path ++ ["relocs.txt"])]

/-- Effect trace of `Init::run` on the output directory, in program order:
`overlay_configs`, then `autoload_configs`, then `arm9_config`, then (when
not dry) the top-level directory creation and the config file write. -/
def initRunEffects (dry : Bool) (outputPath : List String)
    (overlayNames : List String) (autoloads : List AutoloadKind) : List FsEffect :=
  let arm9Path := outputPath ++ ["arm9"]
  let overlaysPath := arm9Path ++ ["overlays"]
  overlayConfigEffects dry overlaysPath overlayNames ++
    autoloadConfigEffects dry arm9Path autoloads ++
    arm9ConfigEffects dry arm9Path ++
    (if dry then []
     else [FsEffect.createDir arm9Path, FsEffect.writeFile (arm9Path ++ ["config.yaml"])])

/-- The pointer is outside every section of the focus module. -/
def nonlocalTo (modules : List Module) (moduleIndex : Nat) (a : Nat) : Prop :=
  getByContainedAddress (modules.getD moduleIndex default).sections a = none

/-- Property of one per-function relocation block: a list of `Call`
relocations at the function's call sites followed by a list of non-local
`Load` relocations at the function's pool-constant addresses. -/
def funBlock (modules : List Module) (mi : Nat) (f : Function)
    (b : List Relocation × List Relocation) : Prop :=
  (∀ x ∈ b.1, (∃ ft tt, x.kind = RelocationKind.call ft tt) ∧
    x.fromAddress ∈ f.functionCalls.map Prod.fst) ∧
  (∀ x ∈ b.2, x.kind = RelocationKind.load ∧
    x.fromAddress ∈ f.poolConstants.map PoolConstant.address ∧
    nonlocalTo modules mi x.toAddress)

/-- Written from the specification's words for the call-candidate set, with
the single amendment the code forces: the hit section must be a Code section
that has a function starting exactly at the target address (the source
performs no low-bit clearing in this lookup) whose Thumb flag equals the
call's target Thumb flag. -/
def specCallPred (target : Nat) (thumb : Bool) (m : Module) : Bool :=
  match getByContainedAddress m.sections target with
  | some (_, s) =>
    s.kind == SectionKind.code &&
      match s.functions.find? (fun fn => fn.start == target) with
      | some fn => fn.is_thumb == thumb
      | none => false
  | none => false

/-- The spec-worded candidate set: every module other than the focus module
that satisfies `specCallPred`. -/
def specCallCandidatesAux (moduleIndex target : Nat) (thumb : Bool) :
    List Module → Nat → List Module
  | [], _ => []
  | m :: rest, i =>
    if i = moduleIndex then specCallCandidatesAux moduleIndex target thumb rest (i + 1)
    else if specCallPred target thumb m then
      m :: specCallCandidatesAux moduleIndex target thumb rest (i + 1)
    else specCallCandidatesAux moduleIndex target thumb rest (i + 1)

def specCallCandidates (modules : List Module) (moduleIndex target : Nat) (thumb : Bool) :
    List Module :=
  specCallCandidatesAux moduleIndex target thumb modules 0

/-- Written from claim C1's words verbatim (for comparison): the candidate
test with the low bit cleared before the function lookup. -/
def claimCallPredMasked (target : Nat) (thumb : Bool) (m : Module) : Bool :=
  match getByContainedAddress m.sections target with
  | some (_, s) =>
    s.kind == SectionKind.code &&
      match s.functions.find? (fun fn => fn.start == clearLowBit target) with
      | some fn => fn.is_thumb == thumb
      | none => false
  | none => false

def claimCallCandidatesMaskedAux (moduleIndex target : Nat) (thumb : Bool) :
    List Module → Nat → List Module
  | [], _ => []
  | m :: rest, i =>
    if i = moduleIndex then claimCallCandidatesMaskedAux moduleIndex target thumb rest (i + 1)
    else if claimCallPredMasked target thumb m then
      m :: claimCallCandidatesMaskedAux moduleIndex target thumb rest (i + 1)
    else claimCallCandidatesMaskedAux moduleIndex target thumb rest (i + 1)

/-- Claim C1's candidate set as the claim states it: other modules whose hit
section is Code with a function at `target & !1` of matching Thumb flag. -/
def claimCallCandidatesMasked (modules : List Module) (moduleIndex target : Nat)
    (thumb : Bool) : List Module :=
  claimCallCandidatesMaskedAux moduleIndex target thumb modules 0

/-!
Concrete fixtures: a focus module (`exM0`, Main, one Code section with two
functions) and one overlay (`exM1`, id 3, a Code section with a Thumb
function at 0x8020 and a Data section at 0x9000).
-/

def RelocationKind.isCall : RelocationKind → Bool
  | RelocationKind.call _ _ => true
  | RelocationKind.load => false

def exOvFun : Function :=
  { start := 0x8020, thumb := true, functionCalls := [], poolConstants := [] }

def exOvCode : Section :=
  { kind := SectionKind.code, start := 0x8000, endAddr := 0x8100, functions := [exOvFun] }

def exOvData : Section :=
  { kind := SectionKind.data, start := 0x9000, endAddr := 0x9100, functions := [] }

def exM1 : Module :=
  { kind := ModuleKind.overlay 3, baseAddress := 0x8000, code := [], sections := [exOvCode, exOvData] }

def exF1 : Function :=
  { start := 0x1000, thumb := false, functionCalls := [], poolConstants := [{ address := 0x1008, value := 0x9000 }] }

def exCall : CalledFunction :=
  { address := 0x8020, thumb := true, conditional := false }

def exF2 : Function :=
  { start := 0x1040, thumb := false, functionCalls := [(0x1044, exCall)], poolConstants := [] }

def exSec0 : Section :=
  { kind := SectionKind.code, start := 0x1000, endAddr := 0x1100, functions := [exF1, exF2] }

def exM0 : Module :=
  { kind := ModuleKind.main, baseAddress := 0x1000, code := [], sections := [exSec0] }

def exMods : List Module := [exM0, exM1]

def exSm : SymbolMaps := fun _ =>
  [{ addr := 0x1000, name := "f1", kind := SymKind.function false 0x40 },
   { addr := 0x1040, name := "f2", kind := SymKind.function false 0x40 }]

/-- The relocation result the analysis produces on the fixture: the pool
load of `exF1` first, then the call of `exF2`. -/
def exR : RelocationResult :=
  { relocations := [Relocation.newLoad 0x1008 0x9000 0 (RelocationModule.overlay 3),
      Relocation.newCall 0x1044 0x8020 (RelocationModule.overlay 3) false true]
    externalSymbols := [{ candidates := [{ moduleIndex := 1, sectionIndex := 1 }], address := 0x9000 }] }

def exCallOdd : CalledFunction :=
  { address := 0x8021, thumb := true, conditional := false }

def exF3 : Function :=
  { start := 0x1000, thumb := false, functionCalls := [(0x1004, exCallOdd)], poolConstants := [] }

def exDCall : CalledFunction :=
  { address := 0x1080, thumb := false, conditional := false }

def exDF : Function :=
  { start := 0x1000, thumb := false, functionCalls := [(0x1004, exDCall)], poolConstants := [] }

def exDSec : Section :=
  { kind := SectionKind.code, start := 0x1000, endAddr := 0x1100, functions := [exDF] }

def exDM : Module :=
  { kind := ModuleKind.main, baseAddress := 0x1000, code := [], sections := [exDSec] }

def exDSm : SymbolMaps := fun _ =>
  [{ addr := 0x1000, name := "f", kind := SymKind.function false 0x40 }]

def exMCall : CalledFunction :=
  { address := 0x1008, thumb := false, conditional := false }

def exMF : Function :=
  { start := 0x1000, thumb := false, functionCalls := [(0x1010, exMCall)], poolConstants := [] }

def exMSec : Section :=
  { kind := SectionKind.code, start := 0x1000, endAddr := 0x1100, functions := [exMF] }

def exMM : Module :=
  { kind := ModuleKind.main, baseAddress := 0x1000, code := [], sections := [exMSec] }

def exMSym : Symbol := { addr := 0x1000, name := "f", kind := SymKind.function false 0x40 }

def exMSm : SymbolMaps := fun _ => [exMSym]

def exCCall : CalledFunction :=
  { address := 0x8020, thumb := false, conditional := true }

def c8Fn : Function :=
  { start := 0x2000, thumb := true, functionCalls := [], poolConstants := [] }

def c8Sec : Section :=
  { kind := SectionKind.code, start := 0x2000, endAddr := 0x3000, functions := [c8Fn] }

def c8Sym : Symbol := { addr := 0x2000, name := "f", kind := SymKind.function true 4 }

def c8Sm : SymbolMap := [c8Sym]

def c8PoolF : Function :=
  { start := 0x1000, thumb := false, functionCalls := [], poolConstants := [{ address := 0x1008, value := 0x2001 }] }

def c10Data : Section :=
  { kind := SectionKind.data, start := 0x1000, endAddr := 0x1008, functions := [] }

def c10M : Module :=
  { kind := ModuleKind.main, baseAddress := 0x1000, code := List.replicate 8 0, sections := [c10Data] }

/-!
Helper lemmas about the embedding.
-/

/-- Flattening a map to singletons is a map. -/
theorem flatten_map_singleton {α β : Type} (l : List α) (f : α → β) :
    (l.map (fun x => [f x])).flatten = l.map f := by
  induction l with
  | nil => rfl
  | cons x xs ih => simp [ih]

/-- `find?` over a list extended with one non-matching element. -/
theorem find?_append_single {α : Type} (l : List α) (p : α → Bool) (s : α)
    (hs : p s = false) : (l ++ [s]).find? p = l.find? p := by
  induction l with
  | nil => simp [List.find?, hs]
  | cons x xs ih =>
    cases hx : p x with
    | true => simp [List.find?, hx]
    | false => simp [List.find?, hx, ih]

/-- Adding an external label never changes containing-function lookups. -/
theorem getFunctionContaining_addExternalLabel (sm : SymbolMap) (a : Nat) (th : Bool)
    (x : Nat) :
    (sm.addExternalLabel a th).getFunctionContaining x = sm.getFunctionContaining x := by
  unfold SymbolMap.addExternalLabel
  split
  · rfl
  · unfold SymbolMap.getFunctionContaining
    exact find?_append_single sm _ _ rfl

theorem SymbolMaps.get_update (sms : SymbolMaps) (k : ModuleKind) (m : SymbolMap)
    (k' : ModuleKind) :
    (sms.update k m).get k' = if k' = k then m else sms.get k' := rfl

/-- Shape of a successful `find_external_data` call: either nothing is
appended, or the pointer is non-local and exactly one `Load` relocation and
one external symbol are appended. -/
theorem find_external_data_ok {modules : List Module} {mi a v : Nat}
    {res res' : RelocationResult}
    (h : find_external_data modules mi a v res = .ok res') :
    res' = res ∨
      (nonlocalTo modules mi v ∧ ∃ M cs,
        res' = { relocations := res.relocations ++ [Relocation.newLoad a v 0 M]
                 externalSymbols := res.externalSymbols ++
                   [{ candidates := cs, address := v }] }) := by
  unfold find_external_data at h
  cases hl : (getByContainedAddress (modules.getD mi default).sections v).isSome with
  | true =>
    rw [hl] at h
    simp at h
    exact Or.inl h.symm
  | false =>
    rw [hl] at h
    simp only [Bool.false_eq_true, if_false] at h
    have hnl : nonlocalTo modules mi v := by
      unfold nonlocalTo
      cases hgo : getByContainedAddress (modules.getD mi default).sections v with
      | none => rfl
      | some p => rw [hgo] at hl; simp at hl
    cases he : (find_symbol_candidates modules mi v).isEmpty with
    | true =>
      rw [he] at h
      simp at h
      exact Or.inl h.symm
    | false =>
      rw [he] at h
      simp only [Bool.false_eq_true, if_false] at h
      split at h
      · exact absurd h (by simp)
      · cases h
        exact Or.inr ⟨hnl, _, _, rfl⟩

/-- A failing `find_external_data` call reports an ambiguous relocation. -/
theorem find_external_data_error {modules : List Module} {mi a v : Nat}
    {res : RelocationResult} {e : AnalysisError}
    (h : find_external_data modules mi a v res = .error e) :
    e = AnalysisError.ambiguousRelocation := by
  unfold find_external_data at h
  cases hl : (getByContainedAddress (modules.getD mi default).sections v).isSome with
  | true => rw [hl] at h; simp at h
  | false =>
    rw [hl] at h
    simp only [Bool.false_eq_true, if_false] at h
    cases he : (find_symbol_candidates modules mi v).isEmpty with
    | true => rw [he] at h; simp at h
    | false =>
      rw [he] at h
      simp only [Bool.false_eq_true, if_false] at h
      split at h
      · rename_i e' hm
        cases h
        unfold RelocationModule.fromModules at hm
        split at hm
        · cases hm
        · cases hm
        · split at hm
          · cases hm
          · cases hm; rfl
      · exact absurd h (by simp)

/-- Shape of one successful call-site step: containing-function lookups are
preserved, external symbols are untouched, at most one `Call` relocation is
appended, and a successful non-conditional local call implies the containing
function existed beforehand. -/
theorem processCallSite_ok {modules : List Module} {mi : Nat} {f : Function}
    {st st' : SymbolMaps × RelocationResult} {c : Nat × CalledFunction}
    (h : processCallSite modules mi f st c = .ok st') :
    (∀ k a, (st'.1.get k).getFunctionContaining a = (st.1.get k).getFunctionContaining a) ∧
    st'.2.externalSymbols = st.2.externalSymbols ∧
    (st'.2.relocations = st.2.relocations ∨
      ∃ M, st'.2.relocations = st.2.relocations ++
        [Relocation.newCall c.1 c.2.address M f.is_thumb c.2.thumb]) ∧
    (c.2.conditional = false →
      (getByContainedAddress (modules.getD mi default).sections c.2.address).isSome = true →
      ((st.1.get (modules.getD mi default).kind).getFunctionContaining
        c.2.address).isSome = true) := by
  unfold processCallSite at h
  cases hc : c.2.conditional with
  | true =>
    rw [hc] at h
    simp at h
    cases h
    exact ⟨fun k a => rfl, rfl, Or.inl rfl, fun hfalse _ => by simp at hfalse⟩
  | false =>
    rw [hc] at h
    simp only [Bool.false_eq_true, if_false] at h
    cases hd : callDestination modules mi st.1 c.2 with
    | error e => rw [hd] at h; cases h
    | ok p =>
      rw [hd] at h
      cases h
      unfold callDestination at hd
      cases hl : (getByContainedAddress (modules.getD mi default).sections
          c.2.address).isSome with
      | true =>
        rw [hl] at hd
        simp only [if_true] at hd
        cases hg : (st.1.get (modules.getD mi default).kind).getFunctionContaining
            c.2.address with
        | none => rw [hg] at hd; cases hd
        | some symbol =>
          rw [hg] at hd
          simp only at hd
          cases hd
          refine ⟨?_, rfl, Or.inr ⟨_, rfl⟩, fun _ _ => rfl⟩
          intro k a
          by_cases hmid : c.2.address ≠ symbol.addr
          · rw [if_pos hmid, SymbolMaps.get_update]
            by_cases hk : k = (modules.getD mi default).kind
            · rw [if_pos hk, hk, getFunctionContaining_addExternalLabel]
            · rw [if_neg hk]
          · rw [if_neg hmid]
      | false =>
        rw [hl] at hd
        simp only [Bool.false_eq_true, if_false] at hd
        cases hm : RelocationModule.fromModules
            (modules.filter (callSiteFilter c.2.address c.2.thumb)) with
        | error e => rw [hm] at hd; cases hd
        | ok m =>
          rw [hm] at hd
          cases hd
          exact ⟨fun k a => rfl, rfl, Or.inr ⟨_, rfl⟩, fun _ hl' => by simp [hl] at hl'⟩

/-- Shape of a successful call-site loop over a list of sites. -/
theorem callSiteFold_ok {modules : List Module} {mi : Nat} {f : Function} :
    ∀ {sites : List (Nat × CalledFunction)} {st st' : SymbolMaps × RelocationResult},
    callSiteFold modules mi f sites st = .ok st' →
    (∀ k a, (st'.1.get k).getFunctionContaining a = (st.1.get k).getFunctionContaining a) ∧
    st'.2.externalSymbols = st.2.externalSymbols ∧
    (∃ t, st'.2.relocations = st.2.relocations ++ t ∧
      ∀ x ∈ t, (∃ ft tt, x.kind = RelocationKind.call ft tt) ∧
        x.fromAddress ∈ sites.map Prod.fst) ∧
    (∀ c ∈ sites, c.2.conditional = false →
      (getByContainedAddress (modules.getD mi default).sections c.2.address).isSome = true →
      ((st.1.get (modules.getD mi default).kind).getFunctionContaining
        c.2.address).isSome = true) := by
  intro sites
  induction sites with
  | nil =>
    intro st st' h
    unfold callSiteFold at h
    cases h
    exact ⟨fun k a => rfl, rfl, ⟨[], by simp, by simp⟩, by simp⟩
  | cons c rest ih =>
    intro st st' h
    unfold callSiteFold at h
    cases hstep : processCallSite modules mi f st c with
    | error e => rw [hstep] at h; cases h
    | ok st₁ =>
      rw [hstep] at h
      obtain ⟨hpres₁, hext₁, hrel₁, hloc₁⟩ := processCallSite_ok hstep
      obtain ⟨hpres₂, hext₂, ⟨t, ht, htprop⟩, hloc₂⟩ := ih h
      refine ⟨fun k a => (hpres₂ k a).trans (hpres₁ k a), hext₂.trans hext₁, ?_, ?_⟩
      · cases hrel₁ with
        | inl heq =>
          exact ⟨t, by rw [ht, heq], fun x hx =>
            ⟨(htprop x hx).1, by simp [List.mem_cons]; exact Or.inr (by
              simpa using (htprop x hx).2)⟩⟩
        | inr hex =>
          obtain ⟨M, hM⟩ := hex
          refine ⟨Relocation.newCall c.1 c.2.address M f.is_thumb c.2.thumb :: t, ?_, ?_⟩
          · rw [ht, hM, List.append_assoc]
            rfl
          · intro x hx
            cases hx with
            | head => exact ⟨⟨_, _, rfl⟩, by simp [Relocation.newCall]⟩
            | tail _ hx' =>
              exact ⟨(htprop x hx').1, by simp [List.mem_cons]; exact Or.inr (by
                simpa using (htprop x hx').2)⟩
      · intro c' hc' hcond hlocal
        cases hc' with
        | head => exact hloc₁ hcond hlocal
        | tail _ hmem =>
          have := hloc₂ c' hmem hcond hlocal
          rw [hpres₁ (modules.getD mi default).kind c'.2.address] at this
          exact this

/-- Shape of a successful pool-constant loop: only `Load` relocations at
pool addresses, all with non-local targets. -/
theorem poolFold_ok {modules : List Module} {mi : Nat} :
    ∀ {pcs : List PoolConstant} {res res' : RelocationResult},
    poolFold modules mi pcs res = .ok res' →
    ∃ t u, res'.relocations = res.relocations ++ t ∧
      res'.externalSymbols = res.externalSymbols ++ u ∧
      ∀ x ∈ t, x.kind = RelocationKind.load ∧
        x.fromAddress ∈ pcs.map PoolConstant.address ∧ nonlocalTo modules mi x.toAddress := by
  intro pcs
  induction pcs with
  | nil =>
    intro res res' h
    unfold poolFold at h
    cases h
    exact ⟨[], [], by simp, by simp, by simp⟩
  | cons pc rest ih =>
    intro res res' h
    unfold poolFold at h
    cases hstep : find_external_data modules mi pc.address pc.value res with
    | error e => rw [hstep] at h; cases h
    | ok res₁ =>
      rw [hstep] at h
      obtain ⟨t, u, ht, hu, hprop⟩ := ih h
      cases find_external_data_ok hstep with
      | inl heq =>
        refine ⟨t, u, by rw [ht, heq], by rw [hu, heq], ?_⟩
        intro x hx
        obtain ⟨h1, h2, h3⟩ := hprop x hx
        exact ⟨h1, by simp [List.mem_cons]; exact Or.inr (by simpa using h2), h3⟩
      | inr hsome =>
        obtain ⟨hnl, M, cs, hres₁⟩ := hsome
        refine ⟨Relocation.newLoad pc.address pc.value 0 M :: t,
          ({ candidates := cs, address := pc.value } : ExternalSymbol) :: u, ?_, ?_, ?_⟩
        · rw [ht, hres₁]
          simp
        · rw [hu, hres₁]
          simp
        · intro x hx
          cases hx with
          | head => exact ⟨rfl, by simp [Relocation.newLoad], by
              simpa [Relocation.newLoad] using hnl⟩
          | tail _ hx' =>
            obtain ⟨h1, h2, h3⟩ := hprop x hx'
            exact ⟨h1, by simp [List.mem_cons]; exact Or.inr (by simpa using h2), h3⟩

/-- Shape of a successful word loop: only `Load` relocations with non-local
targets. -/
theorem wordFold_ok {modules : List Module} {mi : Nat} :
    ∀ {ws : List Word} {res res' : RelocationResult},
    wordFold modules mi ws res = .ok res' →
    ∃ t u, res'.relocations = res.relocations ++ t ∧
      res'.externalSymbols = res.externalSymbols ++ u ∧
      ∀ x ∈ t, x.kind = RelocationKind.load ∧ nonlocalTo modules mi x.toAddress := by
  intro ws
  induction ws with
  | nil =>
    intro res res' h
    unfold wordFold at h
    cases h
    exact ⟨[], [], by simp, by simp, by simp⟩
  | cons w rest ih =>
    intro res res' h
    unfold wordFold at h
    cases hstep : find_external_data modules mi w.address w.value res with
    | error e => rw [hstep] at h; cases h
    | ok res₁ =>
      rw [hstep] at h
      obtain ⟨t, u, ht, hu, hprop⟩ := ih h
      cases find_external_data_ok hstep with
      | inl heq => exact ⟨t, u, by rw [ht, heq], by rw [hu, heq], hprop⟩
      | inr hsome =>
        obtain ⟨hnl, M, cs, hres₁⟩ := hsome
        refine ⟨Relocation.newLoad w.address w.value 0 M :: t,
          ({ candidates := cs, address := w.value } : ExternalSymbol) :: u, ?_, ?_, ?_⟩
        · rw [ht, hres₁]; simp
        · rw [hu, hres₁]; simp
        · intro x hx
          cases hx with
          | head => exact ⟨rfl, by simpa [Relocation.newLoad] using hnl⟩
          | tail _ hx' => exact hprop x hx'

/-- A failing word loop reports an ambiguous relocation. -/
theorem wordFold_error {modules : List Module} {mi : Nat} :
    ∀ {ws : List Word} {res : RelocationResult} {e : AnalysisError},
    wordFold modules mi ws res = .error e → e = AnalysisError.ambiguousRelocation := by
  intro ws
  induction ws with
  | nil =>
    intro res e h
    unfold wordFold at h
    cases h
  | cons w rest ih =>
    intro res e h
    unfold wordFold at h
    cases hstep : find_external_data modules mi w.address w.value res with
    | error e' =>
      rw [hstep] at h
      cases h
      exact find_external_data_error hstep
    | ok res₁ =>
      rw [hstep] at h
      exact ih h

/-- Shape of a successful data-section pass: only `Load` relocations with
non-local targets are appended. -/
theorem sectionDataFold_ok {modules : List Module} {mi : Nat} :
    ∀ {ss : List Section} {res res' : RelocationResult},
    sectionDataFold modules mi ss res = .ok res' →
    ∃ t u, res'.relocations = res.relocations ++ t ∧
      res'.externalSymbols = res.externalSymbols ++ u ∧
      ∀ x ∈ t, x.kind = RelocationKind.load ∧ nonlocalTo modules mi x.toAddress := by
  intro ss
  induction ss with
  | nil =>
    intro res res' h
    unfold sectionDataFold at h
    cases h
    exact ⟨[], [], by simp, by simp, by simp⟩
  | cons s rest ih =>
    intro res res' h
    unfold sectionDataFold at h
    cases hk : s.kind with
    | code => rw [hk] at h; exact ih h
    | bss => rw [hk] at h; exact ih h
    | data =>
      rw [hk] at h
      cases hb : s.codeBytes (modules.getD mi default).code
          (modules.getD mi default).baseAddress with
      | error e => rw [hb] at h; cases h
      | ok ob =>
        rw [hb] at h
        cases ob with
        | none => cases h
        | some code =>
          have h' : (match wordFold modules mi (s.iterWords code) res with
              | Except.error e => Except.error e
              | Except.ok result' => sectionDataFold modules mi rest result') =
              Except.ok res' := h
          cases hw : wordFold modules mi (s.iterWords code) res with
          | error e => rw [hw] at h'; cases h'
          | ok res₁ =>
            rw [hw] at h'
            have h := h'
            obtain ⟨t₁, u₁, ht₁, hu₁, hp₁⟩ := wordFold_ok hw
            obtain ⟨t₂, u₂, ht₂, hu₂, hp₂⟩ := ih h
            refine ⟨t₁ ++ t₂, u₁ ++ u₂, ?_, ?_, ?_⟩
            · rw [ht₂, ht₁, List.append_assoc]
            · rw [hu₂, hu₁, List.append_assoc]
            · intro x hx
              cases List.mem_append.mp hx with
              | inl hx' => exact hp₁ x hx'
              | inr hx' => exact hp₂ x hx'

/-- Shape of one successful per-function pass (calls then pools). -/
theorem processFunction_ok {modules : List Module} {mi : Nat}
    {st st' : SymbolMaps × RelocationResult} {f : Function}
    (h : processFunction modules mi st f = .ok st') :
    (∀ k a, (st'.1.get k).getFunctionContaining a = (st.1.get k).getFunctionContaining a) ∧
    (∃ b, funBlock modules mi f b ∧
      st'.2.relocations = st.2.relocations ++ (b.1 ++ b.2) ∧
      ∃ u, st'.2.externalSymbols = st.2.externalSymbols ++ u) ∧
    (∀ c ∈ f.functionCalls, c.2.conditional = false →
      (getByContainedAddress (modules.getD mi default).sections c.2.address).isSome = true →
      ((st.1.get (modules.getD mi default).kind).getFunctionContaining
        c.2.address).isSome = true) := by
  unfold processFunction add_function_calls_as_relocations at h
  cases hcall : callSiteFold modules mi f f.functionCalls st with
  | error e => rw [hcall] at h; cases h
  | ok st₁ =>
    rw [hcall] at h
    obtain ⟨sm₁, res₁⟩ := st₁
    have h' : (match find_external_data_from_pools modules mi f res₁ with
        | Except.error e => Except.error e
        | Except.ok result' => Except.ok (sm₁, result')) = Except.ok st' := h
    cases hpool : find_external_data_from_pools modules mi f res₁ with
    | error e => rw [hpool] at h'; cases h'
    | ok res₂ =>
      rw [hpool] at h'
      cases h'
      obtain ⟨hpres₁, hext₁, ⟨t₁, ht₁, hp₁⟩, hloc₁⟩ := callSiteFold_ok hcall
      unfold find_external_data_from_pools at hpool
      obtain ⟨t₂, u₂, ht₂, hu₂, hp₂⟩ := poolFold_ok hpool
      refine ⟨fun k a => hpres₁ k a, ⟨(t₁, t₂), ⟨hp₁, ?_⟩, ?_, u₂, ?_⟩, hloc₁⟩
      · intro x hx
        obtain ⟨h1, h2, h3⟩ := hp₂ x hx
        exact ⟨h1, by simpa [Function.iterPoolConstants] using h2, h3⟩
      · rw [ht₂, ht₁, List.append_assoc]
      · rw [hu₂, hext₁]

/-- Shape of a successful function loop: a block per function, in order,
with containing-function lookups preserved and the local-call check valid at
the entry state. -/
theorem functionFold_ok {modules : List Module} {mi : Nat} :
    ∀ {fs : List Function} {st st' : SymbolMaps × RelocationResult},
    functionFold modules mi fs st = .ok st' →
    (∀ k a, (st'.1.get k).getFunctionContaining a = (st.1.get k).getFunctionContaining a) ∧
    (∃ bs, List.Forall₂ (funBlock modules mi) fs bs ∧
      st'.2.relocations = st.2.relocations ++ bs.flatMap (fun b => b.1 ++ b.2) ∧
      ∃ u, st'.2.externalSymbols = st.2.externalSymbols ++ u) ∧
    (∀ f ∈ fs, ∀ c ∈ f.functionCalls, c.2.conditional = false →
      (getByContainedAddress (modules.getD mi default).sections c.2.address).isSome = true →
      ((st.1.get (modules.getD mi default).kind).getFunctionContaining
        c.2.address).isSome = true) := by
  intro fs
  induction fs with
  | nil =>
    intro st st' h
    unfold functionFold at h
    cases h
    exact ⟨fun k a => rfl, ⟨[], List.Forall₂.nil, by simp, [], by simp⟩, by simp⟩
  | cons f rest ih =>
    intro st st' h
    unfold functionFold at h
    cases hstep : processFunction modules mi st f with
    | error e => rw [hstep] at h; cases h
    | ok st₁ =>
      rw [hstep] at h
      obtain ⟨hpres₁, ⟨b, hb, hrel₁, u₁, hext₁⟩, hloc₁⟩ := processFunction_ok hstep
      obtain ⟨hpres₂, ⟨bs, hbs, hrel₂, u₂, hext₂⟩, hloc₂⟩ := ih h
      refine ⟨fun k a => (hpres₂ k a).trans (hpres₁ k a),
        ⟨b :: bs, List.Forall₂.cons hb hbs, ?_, u₁ ++ u₂, ?_⟩, ?_⟩
      · rw [hrel₂, hrel₁, List.flatMap_cons]
        simp [List.append_assoc]
      · rw [hext₂, hext₁, List.append_assoc]
      · intro f' hf' c hc hcond hlocal
        cases hf' with
        | head => exact hloc₁ c hc hcond hlocal
        | tail _ hmem =>
          have := hloc₂ f' hmem c hc hcond hlocal
          rw [hpres₁ (modules.getD mi default).kind c.2.address] at this
          exact this

/-- A `Forall₂` witness for a member of the right-hand list. -/
theorem forall₂_mem_right {α β : Type} {R : α → β → Prop} :
    ∀ {l₁ : List α} {l₂ : List β}, List.Forall₂ R l₁ l₂ → ∀ b ∈ l₂, ∃ a ∈ l₁, R a b := by
  intro l₁ l₂ hf
  induction hf with
  | nil => intro b hb; cases hb
  | cons hR hrest ih =>
    intro b hb
    cases hb with
    | head => exact ⟨_, List.mem_cons_self _ _, hR⟩
    | tail _ hb' =>
      obtain ⟨a, ha, hab⟩ := ih b hb'
      exact ⟨a, List.mem_cons_of_mem _ ha, hab⟩

/-- Decomposition of a successful `analyze_external_references` run: the
relocation list is one block per focus function (calls, then pools) followed
by the data-section loads, and every successfully processed non-conditional
local call had a containing function in the initial symbol map. -/
theorem analyze_ok_parts {modules : List Module} {mi : Nat} {sm sm' : SymbolMaps}
    {r : RelocationResult}
    (h : analyze_external_references modules mi sm = .ok (sm', r)) :
    (∃ bs dr, List.Forall₂ (funBlock modules mi) (focusFunctions modules mi) bs ∧
      r.relocations = bs.flatMap (fun b => b.1 ++ b.2) ++ dr ∧
      ∀ x ∈ dr, x.kind = RelocationKind.load ∧ nonlocalTo modules mi x.toAddress) ∧
    (∀ f ∈ focusFunctions modules mi, ∀ c ∈ f.functionCalls, c.2.conditional = false →
      (getByContainedAddress (modules.getD mi default).sections c.2.address).isSome = true →
      ((sm.get (modules.getD mi default).kind).getFunctionContaining
        c.2.address).isSome = true) := by
  unfold analyze_external_references at h
  cases hA : find_relocations_in_functions modules mi sm RelocationResult.new with
  | error e => rw [hA] at h; cases h
  | ok p =>
    rw [hA] at h
    obtain ⟨sm₁, res₁⟩ := p
    have h' : (match find_external_references_in_sections modules mi res₁ with
        | Except.error e => Except.error e
        | Except.ok result' => Except.ok (sm₁, result')) = Except.ok (sm', r) := h
    cases hB : find_external_references_in_sections modules mi res₁ with
    | error e => rw [hB] at h'; cases h'
    | ok res₂ =>
      rw [hB] at h'
      cases h'
      unfold find_relocations_in_functions at hA
      obtain ⟨_, ⟨bs, hbs, hrel₁, _, _⟩, hloc⟩ := functionFold_ok hA
      unfold find_external_references_in_sections at hB
      obtain ⟨dr, u, hrel₂, _, hdr⟩ := sectionDataFold_ok hB
      refine ⟨⟨bs, dr, hbs, ?_, hdr⟩, hloc⟩
      rw [hrel₂, hrel₁]
      simp [RelocationResult.new]

/-- The section returned by a contained-address lookup is in the list. -/
theorem getByContainedAddressAux_mem {addr : Nat} :
    ∀ {ss : List Section} {i si : Nat} {s : Section},
      getByContainedAddressAux addr ss i = some (si, s) → s ∈ ss := by
  intro ss
  induction ss with
  | nil => intro i si s h; cases h
  | cons x rest ih =>
    intro i si s h
    unfold getByContainedAddressAux at h
    by_cases hx : x.containsAddr addr
    · rw [if_pos hx] at h
      cases h
      exact List.mem_cons_self _ _
    · rw [if_neg hx] at h
      exact List.mem_cons_of_mem _ (ih h)

theorem getByContainedAddress_mem {ss : List Section} {addr si : Nat} {s : Section}
    (h : getByContainedAddress ss addr = some (si, s)) : s ∈ ss :=
  getByContainedAddressAux_mem h

/-- On a module whose non-Code sections carry no function listings (data
model invariant (b)), the source's candidate filter coincides with the
spec-worded predicate. -/
theorem callSiteFilter_eq_specCallPred {target : Nat} {thumb : Bool} {m : Module}
    (hwf : ∀ s ∈ m.sections, s.kind ≠ SectionKind.code → s.functions = []) :
    callSiteFilter target thumb m = specCallPred target thumb m := by
  unfold callSiteFilter specCallPred
  cases hgo : getByContainedAddress m.sections target with
  | none => rfl
  | some p =>
    obtain ⟨si, s⟩ := p
    cases hfind : s.functions.find? (fun fn => fn.start == target) with
    | none => simp [hfind]
    | some fn =>
      have hmem : fn ∈ s.functions := List.mem_of_find?_eq_some hfind
      have hcode : s.kind = SectionKind.code := by
        by_contra hne
        rw [hwf s (getByContainedAddress_mem hgo) hne] at hmem
        cases hmem
      simp [hfind, hcode]

/-- Under the non-local hypothesis and invariant (b), the source's module
filter computes exactly the spec-worded candidate set. -/
theorem filter_eq_specCallCandidatesAux {target : Nat} {thumb : Bool} {moduleIndex : Nat} :
    ∀ (l : List Module) (i : Nat),
      (∀ m ∈ l, ∀ s ∈ m.sections, s.kind ≠ SectionKind.code → s.functions = []) →
      (∀ j m, i + j = moduleIndex → l.get? j = some m →
        callSiteFilter target thumb m = false) →
      l.filter (callSiteFilter target thumb) =
        specCallCandidatesAux moduleIndex target thumb l i := by
  intro l
  induction l with
  | nil => intro i _ _; rfl
  | cons x rest ih =>
    intro i hwf hexcl
    unfold specCallCandidatesAux
    by_cases hi : i = moduleIndex
    · rw [if_pos hi]
      have hx : callSiteFilter target thumb x = false :=
        hexcl 0 x (by omega) rfl
      rw [List.filter_cons, hx]
      simp only [Bool.false_eq_true, if_false]
      exact ih (i + 1) (fun m hm => hwf m (List.mem_cons_of_mem _ hm))
        (fun j m hj _ => absurd hj (by omega))
    · rw [if_neg hi]
      have hrest := ih (i + 1) (fun m hm => hwf m (List.mem_cons_of_mem _ hm))
        (fun j m hj hg => hexcl (j + 1) m (by omega) hg)
      rw [List.filter_cons,
        callSiteFilter_eq_specCallPred (hwf x (List.mem_cons_self _ _))]
      cases hp : specCallPred target thumb x with
      | true => simp only [if_true]; rw [hrest]
      | false => simp only [Bool.false_eq_true, if_false]; rw [hrest]

/-- Membership in the symbol-candidate list, positionally. -/
theorem symbolCandidatesAux_mem {moduleIndex pointer : Nat} :
    ∀ {l : List Module} {j i si : Nat},
      (({ moduleIndex := i, sectionIndex := si } : SymbolCandidate) ∈
          symbolCandidatesAux moduleIndex pointer l j ↔
        ∃ k m, l.get? k = some m ∧ i = j + k ∧ i ≠ moduleIndex ∧
          candidateSection m pointer = some si) := by
  intro l
  induction l with
  | nil =>
    intro j i si
    simp [symbolCandidatesAux]
  | cons x rest ih =>
    intro j i si
    unfold symbolCandidatesAux
    constructor
    · intro hmem
      by_cases hj : j = moduleIndex
      · rw [if_pos hj] at hmem
        obtain ⟨k, m, hg, hik, hne, hc⟩ := ih.mp hmem
        exact ⟨k + 1, m, hg, by omega, hne, hc⟩
      · rw [if_neg hj] at hmem
        cases hcs : candidateSection x pointer with
        | some si' =>
          rw [hcs] at hmem
          cases hmem with
          | head =>
            exact ⟨0, x, rfl, by omega, by omega, hcs⟩
          | tail _ hmem' =>
            obtain ⟨k, m, hg, hik, hne, hc⟩ := ih.mp hmem'
            exact ⟨k + 1, m, hg, by omega, hne, hc⟩
        | none =>
          rw [hcs] at hmem
          obtain ⟨k, m, hg, hik, hne, hc⟩ := ih.mp hmem
          exact ⟨k + 1, m, hg, by omega, hne, hc⟩
    · rintro ⟨k, m, hg, hik, hne, hc⟩
      cases k with
      | zero =>
        cases hg
        have hj : j ≠ moduleIndex := by omega
        rw [if_neg hj]
        have hi : i = j := by omega
        rw [hi, hc]
        exact List.mem_cons_self _ _
      | succ k' =>
        have htail : ({ moduleIndex := i, sectionIndex := si } : SymbolCandidate) ∈
            symbolCandidatesAux moduleIndex pointer rest (j + 1) :=
          ih.mpr ⟨k', m, hg, by omega, hne, hc⟩
        by_cases hj : j = moduleIndex
        · rw [if_pos hj]; exact htail
        · rw [if_neg hj]
          cases hcs : candidateSection x pointer with
          | some si' => exact List.mem_cons_of_mem _ htail
          | none => exact htail

/-- The candidate test of one module, characterized by the spec's words:
the section map contains the pointer and the hit section is Data or Bss, or
is Code with a function at the low-bit-cleared pointer whose Thumb flag
matches the pointer's low bit. -/
theorem candidateSection_eq_some_iff {m : Module} {p si : Nat} :
    candidateSection m p = some si ↔
      ∃ s, getByContainedAddress m.sections p = some (si, s) ∧
        (s.kind = SectionKind.data ∨ s.kind = SectionKind.bss ∨
          (s.kind = SectionKind.code ∧ ∃ fn,
            s.functions.find? (fun fn => fn.start == clearLowBit p) = some fn ∧
            fn.is_thumb = lowBitSet p)) := by
  unfold candidateSection
  cases hgo : getByContainedAddress m.sections p with
  | none => simp
  | some q =>
    obtain ⟨si', s⟩ := q
    cases hk : s.kind with
    | code =>
      cases hfind : s.functions.find? (fun fn => fn.start == clearLowBit p) with
      | none =>
        simp only [hk, if_true, hfind]
        constructor
        · intro h; cases h
        · rintro ⟨s', hs', hdisj⟩
          cases hs'
          rcases hdisj with h | h | ⟨_, fn, hf, _⟩
          · rw [hk] at h; cases h
          · rw [hk] at h; cases h
          · rw [hfind] at hf; cases hf
      | some fn =>
        cases ht : fn.is_thumb == lowBitSet p with
        | true =>
          simp only [hk, if_true, hfind, ht]
          constructor
          · intro h
            cases h
            exact ⟨s, rfl, Or.inr (Or.inr ⟨hk, fn, hfind, by simpa using ht⟩)⟩
          · rintro ⟨s', hs', _⟩
            cases hs'
            rfl
        | false =>
          simp only [hk, if_true, hfind, ht, Bool.false_eq_true, if_false]
          constructor
          · intro h; cases h
          · rintro ⟨s', hs', hdisj⟩
            cases hs'
            rcases hdisj with h | h | ⟨_, fn', hf, hth⟩
            · rw [hk] at h; cases h
            · rw [hk] at h; cases h
            · rw [hfind] at hf
              cases hf
              rw [hth] at ht
              simp at ht
    | data =>
      simp only [hk]
      constructor
      · intro h
        cases h
        exact ⟨s, rfl, Or.inl hk⟩
      · rintro ⟨s', hs', _⟩
        cases hs'
        rfl
    | bss =>
      simp only [hk]
      constructor
      · intro h
        cases h
        exact ⟨s, rfl, Or.inr (Or.inl hk)⟩
      · rintro ⟨s', hs', _⟩
        cases hs'
        rfl

/-- The data-section pass never reaches the backing-bytes unwrap when every
Data section of the focus module lies in its code buffer. -/
theorem sectionDataFold_ne_unwrapPanic {modules : List Module} {mi : Nat} :
    ∀ {ss : List Section} {res : RelocationResult},
      (∀ s ∈ ss, s.kind = SectionKind.data →
        s.inBuffer (modules.getD mi default).code (modules.getD mi default).baseAddress) →
      sectionDataFold modules mi ss res ≠ .error AnalysisError.unwrapPanic := by
  intro ss
  induction ss with
  | nil =>
    intro res _ h
    cases h
  | cons s rest ih =>
    intro res hbuf h
    unfold sectionDataFold at h
    cases hk : s.kind with
    | code =>
      rw [hk] at h
      exact ih (fun s' hs' => hbuf s' (List.mem_cons_of_mem _ hs')) h
    | bss =>
      rw [hk] at h
      exact ih (fun s' hs' => hbuf s' (List.mem_cons_of_mem _ hs')) h
    | data =>
      rw [hk] at h
      have hib := hbuf s (List.mem_cons_self _ _) hk
      unfold Section.inBuffer at hib
      have hsome : s.codeBytes (modules.getD mi default).code
          (modules.getD mi default).baseAddress =
          .ok (some (((modules.getD mi default).code.drop
            (s.start - (modules.getD mi default).baseAddress)).take
              (s.endAddr - s.start))) := by
        unfold Section.codeBytes
        rw [hk]
        simp only []
        rw [if_pos hib]
      rw [hsome] at h
      have h' : (match wordFold modules mi
            (s.iterWords (((modules.getD mi default).code.drop
              (s.start - (modules.getD mi default).baseAddress)).take
                (s.endAddr - s.start))) res with
          | Except.error e => Except.error e
          | Except.ok result' => sectionDataFold modules mi rest result') =
          Except.error AnalysisError.unwrapPanic := h
      cases hw : wordFold modules mi
          (s.iterWords (((modules.getD mi default).code.drop
            (s.start - (modules.getD mi default).baseAddress)).take
              (s.endAddr - s.start))) res with
      | error e =>
        rw [hw] at h'
        cases h'
        exact absurd (wordFold_error hw) (by intro hcontr; cases hcontr)
      | ok res₁ =>
        rw [hw] at h'
        exact ih (fun s' hs' => hbuf s' (List.mem_cons_of_mem _ hs')) h'

/-- C1 (amended): for a non-conditional call site whose target is not in any
section of the focus module, on modules whose non-Code sections carry no
functions, the emitted `Call` relocation's destination is the reduction of
exactly the set of other modules whose section map contains the target in a
Code section having a function starting exactly at the target address (no
low-bit clearing) with matching Thumb flag; errors of the reduction
propagate. -/
theorem C1_call_candidates (modules : List Module) (mi : Nat) (f : Function)
    (sm : SymbolMaps) (res : RelocationResult) (a : Nat) (cf : CalledFunction)
    (hc : cf.conditional = false)
    (hnl : getByContainedAddress (modules.getD mi default).sections cf.address = none)
    (hwf : ∀ m ∈ modules, ∀ s ∈ m.sections, s.kind ≠ SectionKind.code → s.functions = []) :
    processCallSite modules mi f (sm, res) (a, cf) =
      match RelocationModule.fromModules
          (specCallCandidates modules mi cf.address cf.thumb) with
      | .ok M => .ok (sm, { res with relocations := res.relocations ++
          [Relocation.newCall a cf.address M f.is_thumb cf.thumb] })
      | .error e => .error e := by
  have hfocus : ∀ j m, 0 + j = mi → modules.get? j = some m →
      callSiteFilter cf.address cf.thumb m = false := by
    intro j m hj hg
    have hjm : j = mi := by omega
    subst hjm
    have hm : modules.getD j default = m := by
      rw [List.getD_eq_getElem?_getD, ← List.get?_eq_getElem?, hg]
      rfl
    rw [hm] at hnl
    simp [callSiteFilter, hnl]
  have hfilter := filter_eq_specCallCandidatesAux modules 0 hwf hfocus
  unfold processCallSite
  simp only [hc, Bool.false_eq_true, if_false]
  unfold callDestination
  simp only [hnl, Option.isSome_none, Bool.false_eq_true, if_false]
  unfold specCallCandidates
  rw [hfilter]
  cases hfm : RelocationModule.fromModules
      (specCallCandidatesAux mi cf.address cf.thumb modules 0) with
  | error e => simp [hfm]
  | ok M => simp [hfm]

/-- C2 (amended): a successful analysis appends relocations as one block per
focus function in iteration order — the function's `Call` relocations (at its
call sites) followed by its pool-constant `Load` relocations — and after all
function blocks the data-section `Load` relocations.  (The original claim's
stronger statement, that all call relocations precede all pool relocations of
the module, fails: passes A and B are interleaved per function.) -/
theorem C2_relocation_order (modules : List Module) (mi : Nat) (sm sm' : SymbolMaps)
    (r : RelocationResult)
    (h : analyze_external_references modules mi sm = .ok (sm', r)) :
    ∃ bs dr, List.Forall₂ (funBlock modules mi) (focusFunctions modules mi) bs ∧
      r.relocations = bs.flatMap (fun b => b.1 ++ b.2) ++ dr ∧
      ∀ x ∈ dr, x.kind = RelocationKind.load := by
  obtain ⟨⟨bs, dr, hbs, hrel, hdr⟩, _⟩ := analyze_ok_parts h
  exact ⟨bs, dr, hbs, hrel, fun x hx => (hdr x hx).1⟩

/-- C3: a non-conditional call site whose target lies in a section of the
focus module but inside no function of the focus symbol map fails with the
`DanglingCall` error at that site, and `analyze_external_references` returns
an error — the caller receives no (partial) `RelocationResult`. -/
theorem C3_dangling_call_fatal (modules : List Module) (mi : Nat) (sm : SymbolMaps)
    (s : Section) (f : Function) (a : Nat) (cf : CalledFunction)
    (hs : s ∈ (modules.getD mi default).sections)
    (hf : f ∈ s.functions)
    (hc : (a, cf) ∈ f.functionCalls)
    (hcond : cf.conditional = false)
    (hl : (getByContainedAddress (modules.getD mi default).sections cf.address).isSome = true)
    (hd : (sm.get (modules.getD mi default).kind).getFunctionContaining cf.address = none) :
    (∀ res, processCallSite modules mi f (sm, res) (a, cf) =
      .error AnalysisError.danglingCall) ∧
    ∃ e, analyze_external_references modules mi sm = .error e := by
  refine ⟨?_, ?_⟩
  · intro res
    unfold processCallSite callDestination
    simp only [hcond, Bool.false_eq_true, if_false, hl, if_true, hd]
  cases ha : analyze_external_references modules mi sm with
  | error e => exact ⟨e, rfl⟩
  | ok p =>
    obtain ⟨sm', r⟩ := p
    obtain ⟨_, hloc⟩ := analyze_ok_parts ha
    have hfm : f ∈ focusFunctions modules mi := by
      unfold focusFunctions
      exact List.mem_flatMap.mpr ⟨s, hs, hf⟩
    have h2 : ((sm.get (modules.getD mi default).kind).getFunctionContaining
        cf.address).isSome = true := hloc f hfm (a, cf) hc hcond hl
    rw [hd] at h2
    cases h2

/-- C4: a non-conditional local call landing strictly inside a known
function's body adds an `ExternalLabel(target, target_thumb)` to the focus
module's symbol map and still appends a `Call` relocation whose destination
is the focus module's own kind (the spec's `Current`, i.e. "same module").
The warning log is outside the model. -/
theorem C4_mid_function_call (modules : List Module) (mi : Nat) (f : Function)
    (sm : SymbolMaps) (res : RelocationResult) (a : Nat) (cf : CalledFunction)
    (symbol : Symbol)
    (hcond : cf.conditional = false)
    (hl : (getByContainedAddress (modules.getD mi default).sections cf.address).isSome = true)
    (hsym : (sm.get (modules.getD mi default).kind).getFunctionContaining cf.address =
      some symbol)
    (hmid : cf.address ≠ symbol.addr) :
    processCallSite modules mi f (sm, res) (a, cf) =
      .ok (sm.update (modules.getD mi default).kind
            ((sm.get (modules.getD mi default).kind).addExternalLabel cf.address cf.thumb),
          { res with relocations := res.relocations ++
              [Relocation.newCall a cf.address
                ((modules.getD mi default).kind.toRelocationModule) f.is_thumb cf.thumb] }) := by
  unfold processCallSite callDestination
  simp only [hcond, Bool.false_eq_true, if_false, hl, if_true, hsym]
  rw [if_pos hmid]

/-- C5: for a pointer outside every focus section, a pair (module index,
section index) is a symbol candidate exactly when the module is not the
focus, its section map contains the pointer, and the hit section is Data or
Bss, or is Code with a function at `pointer & !1` whose Thumb flag equals the
pointer's low bit; and when the candidate set is empty, `find_external_data`
appends neither a relocation nor an external symbol. -/
theorem C5_symbol_candidate_set (modules : List Module) (mi a p : Nat)
    (res : RelocationResult)
    (_hnl : getByContainedAddress (modules.getD mi default).sections p = none) :
    (∀ i si, ({ moduleIndex := i, sectionIndex := si } : SymbolCandidate) ∈
        find_symbol_candidates modules mi p ↔
      (i ≠ mi ∧ ∃ m s, modules.get? i = some m ∧
        getByContainedAddress m.sections p = some (si, s) ∧
        (s.kind = SectionKind.data ∨ s.kind = SectionKind.bss ∨
          (s.kind = SectionKind.code ∧ ∃ fn,
            s.functions.find? (fun fn => fn.start == clearLowBit p) = some fn ∧
            fn.is_thumb = lowBitSet p)))) ∧
    (find_symbol_candidates modules mi p = [] →
      find_external_data modules mi a p res = .ok res) := by
  constructor
  · intro i si
    unfold find_symbol_candidates
    rw [symbolCandidatesAux_mem]
    constructor
    · rintro ⟨k, m, hg, hik, hne, hc⟩
      have hik' : i = k := by omega
      subst hik'
      obtain ⟨s, hgo, hdisj⟩ := candidateSection_eq_some_iff.mp hc
      exact ⟨hne, m, s, hg, hgo, hdisj⟩
    · rintro ⟨hne, m, s, hg, hgo, hdisj⟩
      exact ⟨i, m, hg, by omega, hne, candidateSection_eq_some_iff.mpr ⟨s, hgo, hdisj⟩⟩
  · intro hempty
    unfold find_external_data
    simp [_hnl, hempty]

/-- C6: every `Load` relocation appended by a successful cross-module
analysis targets a pointer contained in no section of the focus module. -/
theorem C6_loads_nonlocal (modules : List Module) (mi : Nat) (sm sm' : SymbolMaps)
    (r : RelocationResult)
    (h : analyze_external_references modules mi sm = .ok (sm', r)) :
    ∀ x ∈ r.relocations, x.kind = RelocationKind.load →
      getByContainedAddress (modules.getD mi default).sections x.toAddress = none := by
  obtain ⟨⟨bs, dr, hbs, hrel, hdr⟩, _⟩ := analyze_ok_parts h
  intro x hx hload
  rw [hrel] at hx
  cases List.mem_append.mp hx with
  | inr hxdr => exact (hdr x hxdr).2
  | inl hxbs =>
    obtain ⟨b, hb, hxb⟩ := List.mem_flatMap.mp hxbs
    obtain ⟨f, hfmem, hfb⟩ := forall₂_mem_right hbs b hb
    cases List.mem_append.mp hxb with
    | inl hxc =>
      obtain ⟨⟨ft, tt, hk⟩, _⟩ := hfb.1 x hxc
      rw [hload] at hk
      cases hk
    | inr hxp => exact (hfb.2 x hxp).2.2

/-- C7: a conditional call site is skipped entirely — no relocation, no
symbol-map change, no error. -/
theorem C7_conditional_skipped (modules : List Module) (mi : Nat) (f : Function)
    (sm : SymbolMaps) (res : RelocationResult) (a : Nat) (cf : CalledFunction)
    (h : cf.conditional = true) :
    processCallSite modules mi f (sm, res) (a, cf) = .ok (sm, res) := by
  unfold processCallSite
  simp [h]

/-- C8 (amended): the pool-constant function-pointer check
(`find_local_data_from_pools`) and the cross-module candidate filter
(`find_symbol_candidates`) clear the low bit before the function lookup; the
Code branch of `add_symbol_from_pointer` and the call-candidate filter look
the address up unmasked, so an odd pointer is not recognized there even when
a function exists at the cleared address. -/
theorem C8_low_bit_lookups :
    (∀ (sections : List Section) (mk : ModuleKind) (sm : SymbolMap)
        (rels : Relocations) (pre : String) (f : Function) (pc : PoolConstant)
        (si : Nat) (s : Section),
      f.poolConstants = [pc] →
      getByContainedAddress sections pc.value = some (si, s) →
      s.kind = SectionKind.code →
      (sm.getFunction (clearLowBit pc.value)).isSome = true →
      find_local_data_from_pools f sections mk sm rels pre [] 0 =
        .ok (sm, rels.addLoad pc.address pc.value 0 mk.toRelocationModule)) ∧
    (∀ (modules : List Module) (mi p i si : Nat) (m : Module) (s : Section),
      ({ moduleIndex := i, sectionIndex := si } : SymbolCandidate) ∈
        find_symbol_candidates modules mi p →
      modules.get? i = some m →
      getByContainedAddress m.sections p = some (si, s) →
      s.kind = SectionKind.code →
      ∃ fn, s.functions.find? (fun fn => fn.start == clearLowBit p) = some fn ∧
        fn.is_thumb = lowBitSet p) ∧
    (∀ (sec : Section) (a p : Nat) (mk : ModuleKind) (sm : SymbolMap)
        (rels : Relocations) (pre : String),
      sec.kind = SectionKind.code → sm.getFunction p = none →
      add_symbol_from_pointer sec a p mk sm rels pre = .ok (sm, rels)) ∧
    (∀ (target : Nat) (thumb : Bool) (m : Module) (si : Nat) (s : Section),
      getByContainedAddress m.sections target = some (si, s) →
      s.functions.find? (fun fn => fn.start == target) = none →
      callSiteFilter target thumb m = false) := by
  refine ⟨?_, ?_, ?_, ?_⟩
  · intro sections mk sm rels pre f pc si s hpc hgo hk hfun
    unfold find_local_data_from_pools Function.iterPoolConstants
    rw [hpc]
    unfold localPoolFold localPoolStep
    rw [hgo]
    simp only [hk, hfun, and_self, if_true, eq_self_iff_true, true_and]
    rfl
  · intro modules mi p i si m s hmem hg hgo hk
    unfold find_symbol_candidates at hmem
    obtain ⟨k, m', hg', hik, hne, hc⟩ := symbolCandidatesAux_mem.mp hmem
    have hik' : i = k := by omega
    subst hik'
    rw [hg] at hg'
    cases hg'
    obtain ⟨s', hgo', hdisj⟩ := candidateSection_eq_some_iff.mp hc
    rw [hgo] at hgo'
    cases hgo'
    rcases hdisj with hd | hd | ⟨_, fn, hf, ht⟩
    · rw [hk] at hd; cases hd
    · rw [hk] at hd; cases hd
    · exact ⟨fn, hf, ht⟩
  · intro sec a p mk sm rels pre hk hfun
    unfold add_symbol_from_pointer
    rw [hk]
    simp [hfun]
  · intro target thumb m si s hgo hfind
    unfold callSiteFilter
    rw [hgo]
    simp [hfind]

/-- C9 (amended): with the dry flag set, `Init::run` writes no files, but it
still creates one directory per overlay and one per autoload under the
output path (`create_dir_all` sits outside the dry guard in
`overlay_configs` and `autoload_configs`). -/
theorem C9_dry_run_effects (outputPath : List String) (overlayNames : List String)
    (autoloads : List AutoloadKind) :
    initRunEffects true outputPath overlayNames autoloads =
      overlayNames.map (fun n =>
        FsEffect.createDir (outputPath ++ ["arm9", "overlays", n])) ++
      autoloads.map (fun k =>
        FsEffect.createDir (outputPath ++ ["arm9", autoloadName k])) := by
  unfold initRunEffects overlayConfigEffects autoloadConfigEffects arm9ConfigEffects
  simp [List.flatMap, List.append_assoc, flatten_map_singleton]

/-- C10: when every Data section of the focus module lies within its code
buffer, the backing-bytes unwrap in the data-section pass is never reached:
Code and Bss sections are skipped before any byte access, and Data sections
yield their bytes. -/
theorem C10_unwrap_safe (modules : List Module) (mi : Nat) (res : RelocationResult)
    (h : ∀ s ∈ (modules.getD mi default).sections, s.kind = SectionKind.data →
      s.inBuffer (modules.getD mi default).code (modules.getD mi default).baseAddress) :
    find_external_references_in_sections modules mi res ≠
      .error AnalysisError.unwrapPanic := by
  unfold find_external_references_in_sections
  exact sectionDataFold_ne_unwrapPanic h

/-- Counterexample to C1 as stated: the target 0x8021 has its Thumb bit set;
the claim's masked candidate set is `[exM1]` (reducing to `Overlay 3`), but
the code's unmasked lookup finds no candidate and emits destination `None`. -/
theorem C1_counterexample :
    claimCallCandidatesMasked exMods 0 0x8021 true = [exM1] ∧
    RelocationModule.fromModules [exM1] = .ok (RelocationModule.overlay 3) ∧
    processCallSite exMods 0 exF3 (exSm, RelocationResult.new) (0x1004, exCallOdd) =
      .ok (exSm, { relocations := [Relocation.newCall 0x1004 0x8021 RelocationModule.none false true]
                   externalSymbols := [] }) ∧
    RelocationModule.none ≠ RelocationModule.overlay 3 :=
  ⟨rfl, rfl, rfl, by decide⟩

/-- Witness for C1's amended theorem at a concrete even (ARM-address) call. -/
theorem C1_witness :
    processCallSite exMods 0 exF2 (exSm, RelocationResult.new) (0x1044, exCall) =
      match RelocationModule.fromModules
          (specCallCandidates exMods 0 exCall.address exCall.thumb) with
      | Except.ok M => Except.ok (exSm,
          { RelocationResult.new with relocations := RelocationResult.new.relocations ++
              [Relocation.newCall 0x1044 exCall.address M exF2.is_thumb exCall.thumb] })
      | Except.error e => Except.error e :=
  C1_call_candidates exMods 0 exF2 exSm RelocationResult.new 0x1044 exCall rfl (by decide)
    (by decide)

/-- Counterexample to C2 as stated: on the fixture the pool load of the
first function precedes the call of the second function, so not every call
relocation precedes every pool-constant relocation. -/
theorem C2_counterexample :
    analyze_external_references exMods 0 exSm = .ok (exSm, exR) ∧
    exR.relocations.map (fun x => x.kind.isCall) = [false, true] ∧
    ¬ (∀ (i j : Nat) (hi : i < exR.relocations.length) (hj : j < exR.relocations.length),
        (exR.relocations.get ⟨i, hi⟩).kind.isCall = true →
        (exR.relocations.get ⟨j, hj⟩).kind.isCall = false → i < j) := by
  refine ⟨rfl, rfl, ?_⟩
  intro hfa
  have := hfa 1 0 (by decide) (by decide) (by decide) (by decide)
  omega

/-- Witness for C2's amended theorem on the fixture run. -/
theorem C2_witness :
    ∃ bs dr, List.Forall₂ (funBlock exMods 0) (focusFunctions exMods 0) bs ∧
      exR.relocations = bs.flatMap (fun b => b.1 ++ b.2) ++ dr ∧
      ∀ x ∈ dr, x.kind = RelocationKind.load :=
  C2_relocation_order exMods 0 exSm exSm exR rfl

/-- Witness for C3: a local call to 0x1080 (inside the focus Code section
but beyond the only function, which ends at 0x1040) makes the analysis
fail. -/
theorem C3_witness :
    processCallSite [exDM] 0 exDF (exDSm, RelocationResult.new) (0x1004, exDCall) =
      .error AnalysisError.danglingCall ∧
    ∃ e, analyze_external_references [exDM] 0 exDSm = .error e :=
  ⟨(C3_dangling_call_fatal [exDM] 0 exDSm exDSec exDF 0x1004 exDCall (by decide) (by decide)
      (by decide) rfl (by decide) rfl).1 RelocationResult.new,
   (C3_dangling_call_fatal [exDM] 0 exDSm exDSec exDF 0x1004 exDCall (by decide) (by decide)
      (by decide) rfl (by decide) rfl).2⟩

/-- Witness for C4: a call to 0x1008, the middle of the function starting at
0x1000. -/
theorem C4_witness :
    processCallSite [exMM] 0 exMF (exMSm, RelocationResult.new) (0x1010, exMCall) =
      .ok (exMSm.update ModuleKind.main
            ((exMSm.get ModuleKind.main).addExternalLabel 0x1008 false),
          { relocations := [Relocation.newCall 0x1010 0x1008 RelocationModule.main false false]
            externalSymbols := [] }) :=
  C4_mid_function_call [exMM] 0 exMF exMSm RelocationResult.new 0x1010 exMCall exMSym rfl
    (by decide) rfl (by decide)

/-- Witness for C5 at pointer 0x9010 (inside the overlay's Data section). -/
theorem C5_witness :
    (∀ i si, ({ moduleIndex := i, sectionIndex := si } : SymbolCandidate) ∈
        find_symbol_candidates exMods 0 0x9010 ↔
      (i ≠ 0 ∧ ∃ m s, exMods.get? i = some m ∧
        getByContainedAddress m.sections 0x9010 = some (si, s) ∧
        (s.kind = SectionKind.data ∨ s.kind = SectionKind.bss ∨
          (s.kind = SectionKind.code ∧ ∃ fn,
            s.functions.find? (fun fn => fn.start == clearLowBit 0x9010) = some fn ∧
            fn.is_thumb = lowBitSet 0x9010)))) ∧
    (find_symbol_candidates exMods 0 0x9010 = [] →
      find_external_data exMods 0 0x1234 0x9010 RelocationResult.new =
        .ok RelocationResult.new) :=
  C5_symbol_candidate_set exMods 0 0x1234 0x9010 RelocationResult.new (by decide)

/-- Witness for C6 on the fixture run, at its pool-load relocation. -/
theorem C6_witness :
    getByContainedAddress (exMods.getD 0 default).sections
      (Relocation.newLoad 0x1008 0x9000 0 (RelocationModule.overlay 3)).toAddress = none :=
  C6_loads_nonlocal exMods 0 exSm exSm exR rfl
    (Relocation.newLoad 0x1008 0x9000 0 (RelocationModule.overlay 3)) (by decide) rfl

/-- Witness for C7: a conditional call site is a no-op. -/
theorem C7_witness :
    processCallSite exMods 0 exF1 (exSm, RelocationResult.new) (0x1100, exCCall) =
      .ok (exSm, RelocationResult.new) :=
  C7_conditional_skipped exMods 0 exF1 exSm RelocationResult.new 0x1100 exCCall rfl

/-- Counterexample to C8 as stated: `add_symbol_from_pointer`'s Code branch
does not canonicalize — the odd pointer 0x2001 is dropped although a
function symbol exists at the cleared address 0x2000, while the cleared
pointer is recognized. -/
theorem C8_counterexample :
    c8Sec.kind = SectionKind.code ∧
    (c8Sm.getFunction (clearLowBit 0x2001)).isSome = true ∧
    add_symbol_from_pointer c8Sec 0x1008 0x2001 ModuleKind.main c8Sm [] "data_" =
      .ok (c8Sm, []) ∧
    add_symbol_from_pointer c8Sec 0x1008 0x2000 ModuleKind.main c8Sm [] "data_" =
      .ok (c8Sm, [Relocation.newLoad 0x1008 0x2000 0 RelocationModule.main]) :=
  ⟨rfl, rfl, rfl, rfl⟩

/-- Witness for C8's amended theorem: the pool-constant check does mask, so
the odd pool value 0x2001 is relocated as a function pointer. -/
theorem C8_witness :
    find_local_data_from_pools c8PoolF [c8Sec] ModuleKind.main c8Sm [] "data_" [] 0 =
      .ok (c8Sm, Relocations.addLoad [] 0x1008 0x2001 0 ModuleKind.main.toRelocationModule) :=
  C8_low_bit_lookups.1 [c8Sec] ModuleKind.main c8Sm [] "data_" c8PoolF
    { address := 0x1008, value := 0x2001 } 0 c8Sec rfl (by decide) rfl rfl

/-- Counterexample to C9 as stated: a dry run with one overlay still creates
the overlay's directory under the output path. -/
theorem C9_counterexample :
    initRunEffects true ["out"] ["ov0"] [] =
      [FsEffect.createDir ["out", "arm9", "overlays", "ov0"]] ∧
    initRunEffects true ["out"] ["ov0"] [] ≠ ([] : List FsEffect) :=
  ⟨rfl, by decide⟩

/-- Witness for C10: a module whose single Data section lies in its buffer. -/
theorem C10_witness :
    find_external_references_in_sections [c10M] 0 RelocationResult.new ≠
      .error AnalysisError.unwrapPanic :=
  C10_unwrap_safe [c10M] 0 RelocationResult.new (by decide)

end DsDecomp
